import Mathlib

/-!
Verification of the struse sample 6502 assembler (samples/asm6502.cpp).

The development shallowly embeds the assembler engine: strings are `List Char`,
the 32-bit unsigned ints of the source are `Nat` reduced mod 2^32 where the
source wraps, C `int` values are `Int`, and each C function of interest is
translated to a Lean function of the same name.  Fallible operations return a
`StatusCode` (mirroring the source enum) paired with their result.

A few strref helpers used by asm6502.cpp (`ahextoui_skip`, `split_range_trim`)
are not present in the struse.h of this repository snapshot; those are
modelled from the spec and marked as such in their doc comments.
-/

namespace Asm6502

/-! ## struse.h character and string primitives -/

/-- strref::is_ws from struse.h: a byte is whitespace when it is at most 0x20
(the source compares `*scan <= 0x20` on the byte value). -/
def is_ws (c : Char) : Bool := c.toNat ≤ 0x20

/-- strref::is_number from struse.h: the byte-value comparison c in '0'..'9'
(48..57), stated over toNat since Char order is its code-point order. -/
def is_number (c : Char) : Bool := 48 ≤ c.toNat && c.toNat ≤ 57

/-- strref::is_alphabetic, as used by is_alphanumeric in struse.h
('a'..'z' is 97..122, 'A'..'Z' is 65..90). -/
def is_alphabetic (c : Char) : Bool :=
  (97 ≤ c.toNat && c.toNat ≤ 122) || (65 ≤ c.toNat && c.toNat ≤ 90)

/-- strref::is_alphanumeric from struse.h. -/
def is_alphanumeric (c : Char) : Bool := is_number c || is_alphabetic c

/-- strref::is_valid_label from struse.h: underscore or alphanumeric. -/
def is_valid_label (c : Char) : Bool := c = '_' || is_alphanumeric c

/-- int_tolower_ascii7 from struse.h. -/
def int_tolower_ascii7 (c : Char) : Char :=
  if 'A' ≤ c && c ≤ 'Z' then Char.ofNat (c.toNat + 0x20) else c

/-- strref::get_first: first character, or NUL when the string is empty. -/
def get_first (s : List Char) : Char := s.headD (Char.ofNat 0)

/-- strref::operator[]: character at a position, NUL when out of range. -/
def char_at (s : List Char) (i : Nat) : Char := s.getD i (Char.ofNat 0)

/-- strref::skip_whitespace (skip(len_whitespace())). -/
def skip_whitespace (s : List Char) : List Char := s.dropWhile is_ws

/-- strref::same_str_case: length check plus per-character comparison, i.e.
exact (case sensitive) equality. -/
def same_str_case (a b : List Char) : Bool := a == b

/-- strref::same_str: length check plus per-character comparison through
int_tolower_ascii7 (case insensitive equality). -/
def same_str (a b : List Char) : Bool :=
  a.length == b.length &&
    (List.zip a b).all (fun p => int_tolower_ascii7 p.1 == int_tolower_ascii7 p.2)

/-- One step of strref::fnv1a: hash = (byte xor hash) * 16777619, as a 32-bit
unsigned multiply (reduced mod 2^32). -/
def fnv1a_step (hash : Nat) (c : Char) : Nat :=
  (Nat.xor (c.toNat % 256) hash) * 16777619 % 4294967296

/-- strref::fnv1a starting from an explicit seed. -/
def fnv1a_seed (seed : Nat) (s : List Char) : Nat := s.foldl fnv1a_step seed

/-- strref::fnv1a with the default seed 2166136261. -/
def fnv1a (s : List Char) : Nat := fnv1a_seed 2166136261 s

/-- int_compare_substr from struse.h (case-insensitive prefix comparison):
true when `check` is at most as long as `scan` and matches it character by
character through int_tolower_ascii7. -/
def int_compare_substr (scan : List Char) (check : List Char) : Bool :=
  check.length ≤ scan.length &&
    (List.zip scan check).all (fun p => int_tolower_ascii7 p.1 == int_tolower_ascii7 p.2)

/-- strref::find(strref): case-insensitive substring search; -1 when the
pattern is empty, the text is empty, or there is no match; otherwise the first
match position. -/
def find_sub (text : List Char) (pat : List Char) : Int :=
  if pat.isEmpty || text.isEmpty || text.length < pat.length then -1
  else go text 0
where
  /-- scan positions left to right as the source loop does -/
  go : List Char → Nat → Int
    | [], _ => -1
    | c :: rest, pos =>
      if pat.length ≤ (c :: rest).length then
        if int_compare_substr (c :: rest) pat then (pos : Int)
        else go rest (pos+1)
      else -1

/-- strref::find_at(char, pos): first index of `c` at or after `pos`,
or -1 when absent. -/
def find_at (s : List Char) (c : Char) (pos : Nat) : Int :=
  match (s.drop pos).findIdx? (fun x => x = c) with
  | some o => (pos + o : Nat)
  | none => -1

/-- strref::atoi_skip: skip whitespace, optional minus sign, then consume
decimal digits; returns the value and the remaining string. -/
def atoi_skip (s : List Char) : Int × List Char :=
  match s.dropWhile is_ws with
  | [] => (0, [])
  | c :: rest =>
    if c = '-' then
      let digits := rest.takeWhile is_number
      ((-(digits.foldl (fun v d => (d.toNat - 48 : Int) + v * 10) 0) : Int),
        rest.drop digits.length)
    else
      let digits := (c :: rest).takeWhile is_number
      (digits.foldl (fun v d => (d.toNat - 48 : Int) + v * 10) 0,
        (c :: rest).drop digits.length)

/-- Hex digit value for strref::ahextoui. -/
def hex_digit (c : Char) : Option Nat :=
  if is_number c then some (c.toNat - 48)
  else if 'a' ≤ c && c ≤ 'f' then some (c.toNat - 97 + 10)
  else if 'A' ≤ c && c ≤ 'F' then some (c.toNat - 65 + 10)
  else none

/-- Modelled from the spec: `ahextoui_skip` is called by EvalExpression but is
absent from this snapshot's struse.h.  It follows strref::ahextoui (skip
whitespace, optional 0x prefix when more than two characters remain, then
accumulate hex digits as `(hex<<4)|digit`) and additionally advances past the
consumed characters, in the same way atoi_skip advances. -/
def ahextoui_skip (s : List Char) : Nat × List Char :=
  hexBody (s.dropWhile is_ws)
where
  /-- parse after the whitespace skip: optional 0x prefix, then hex digits -/
  hexBody (s1 : List Char) : Nat × List Char :=
    let s2 := if 2 < s1.length ∧ char_at s1 0 = '0' ∧ (char_at s1 1 = 'x' ∨ char_at s1 1 = 'X')
              then s1.drop 2 else s1
    let digits := s2.takeWhile (fun c => (hex_digit c).isSome)
    (digits.foldl (fun v d => (v * 16 + (hex_digit d).getD 0) % 4294967296) 0,
      s2.drop digits.length)

/-- strref::len_label: length of the prefix of is_valid_label characters. -/
def len_label (s : List Char) : Nat := (s.takeWhile is_valid_label).length

/-- Characters of the asm6502.cpp range string "!0-9a-zA-Z_@$!." (the leading
exclamation mark is struse's exclusion marker, so a character *matches the
range* when it is NOT in this set; split_range_trim therefore splits at the
first non-label character). -/
def label_char (c : Char) : Bool :=
  is_number c || is_alphabetic c || c = '_' || c = '@' || c = '$' || c = '!' || c = '.'

/-- Modelled from the spec: `split_range_trim(label_char_range)` is called by
EvalExpression and BuildSegment but is absent from this snapshot's struse.h.
Following the spec's tokenization (label references are maximal runs of label
characters) and the split_token_trim discipline, it returns the token made of
the leading label characters and the whitespace-trimmed remainder. -/
def split_range_trim (s : List Char) : List Char × List Char :=
  let token := s.takeWhile label_char
  let rest := (s.drop token.length).dropWhile is_ws
  (token, rest)

/-! ## Capacity constants of asm6502.cpp -/

def MAX_LABELS_EVAL_ALL : Nat := 16
def MAX_SCOPE_DEPTH : Nat := 32
def MAX_EVAL_VALUES : Nat := 32
def MAX_EVAL_OPER : Nat := 64

/-! ## StatusCode (asm6502.cpp enum, in declaration order) -/

def STATUS_OK : Nat := 0
def STATUS_NOT_READY : Nat := 1
def ERROR_UNEXPECTED_CHARACTER_IN_EXPRESSION : Nat := 2
def ERROR_TOO_MANY_VALUES_IN_EXPRESSION : Nat := 3
def ERROR_TOO_MANY_OPERATORS_IN_EXPRESSION : Nat := 4
def ERROR_UNBALANCED_RIGHT_PARENTHESIS : Nat := 5
def ERROR_EXPRESSION_OPERATION : Nat := 6
def ERROR_EXPRESSION_MISSING_VALUES : Nat := 7
def ERROR_INSTRUCTION_NOT_ZP : Nat := 8
def ERROR_INVALID_ADDRESSING_MODE_FOR_BRANCH : Nat := 9
def ERROR_BRANCH_OUT_OF_RANGE : Nat := 10
def ERROR_LABEL_MISPLACED_INTERNAL : Nat := 11
def ERROR_BAD_ADDRESSING_MODE : Nat := 12
def ERROR_UNEXPECTED_CHARACTER_IN_ADDRESSING_MODE : Nat := 13
def ERROR_STOP_PROCESSING_ON_HIGHER : Nat := 14
def ERROR_TARGET_ADDRESS_MUST_EVALUATE_IMMEDIATELY : Nat := 15
def ERROR_TOO_DEEP_SCOPE : Nat := 16
def ERROR_UNBALANCED_SCOPE_CLOSURE : Nat := 17
def ERROR_BAD_MACRO_FORMAT : Nat := 18
def ERROR_ALIGN_MUST_EVALUATE_IMMEDIATELY : Nat := 19
def ERROR_OUT_OF_MEMORY_FOR_MACRO_EXPANSION : Nat := 20

/-! ## FindLabelIndex (binary search over hash keys) -/

/-- The inner `while (index && table[index-1]==hash) index--` loop of
FindLabelIndex: walk back to the first element of a run equal to `hash`. -/
def findFirstIndex (hash : Nat) (table : List Nat) : Nat → Nat
  | 0 => 0
  | index+1 => if table.getD index 0 = hash then findFirstIndex hash table index else index+1

/-- The post-loop insertion point fixups of FindLabelIndex (run when the
search interval is empty; on a sorted table neither branch can fire). -/
def findLabelFixup (hash : Nat) (table : List Nat) (max count : Nat) : Nat :=
  if count < max ∧ table.getD count 0 < hash then count+1
  else if 0 < count ∧ hash < table.getD (count-1) 0 then count - 1
  else count

/-- The binary-search loop of FindLabelIndex. `max` is the initial count;
`index` of the source is `(first+count)/2`.  The loop halves `count - first`
each iteration, so the structural bound `n` (passed as the initial count,
which always covers `count - first`) stands in for the C while loop; the
`n = 0` case is reached only with `first ≥ count`, where the source loop
also stops. -/
def findLabelAux (hash : Nat) (table : List Nat) (max : Nat) :
    Nat → Nat → Nat → Nat
  | 0, _, count => findLabelFixup hash table max count
  | n+1, first, count =>
    if first < count then
      if hash = table.getD ((first + count) / 2) 0 then
        findFirstIndex hash table ((first + count) / 2)
      else if table.getD ((first + count) / 2) 0 < hash then
        findLabelAux hash table max n ((first + count) / 2 + 1) count
      else
        findLabelAux hash table max n first ((first + count) / 2)
    else findLabelFixup hash table max count

/-- FindLabelIndex from asm6502.cpp: binary search over an array of hashes
that may contain duplicates, returning the first index of a matching run, or
the insertion point when the hash is absent. -/
def FindLabelIndex (hash : Nat) (table : List Nat) (count : Nat) : Nat :=
  findLabelAux hash table count count 0 count

/-- Keys are sorted ascending (with duplicates allowed). -/
def SortedLe (t : List Nat) : Prop :=
  ∀ i j, i ≤ j → j < t.length → t.getD i 0 ≤ t.getD j 0

/-! ## Symbol table (pairArray of hash keys and Label records) -/

/-- Label from asm6502.cpp. -/
structure Label where
  label_name : List Char
  expression : List Char
  value : Int
  evaluated : Bool
  zero_page : Bool
  pc_relative : Bool
deriving DecidableEq

/-- The zero-initialized Label that pairArray::insert leaves at the new slot
(memset to 0). -/
def zeroLabel : Label := ⟨[], [], 0, false, false, false⟩

/-- The labels pairArray: keys (hashes) and values (Labels) share indices. -/
abbrev LabelTable := List (Nat × Label)

/-- The key column of the pairArray (labels.getKeys()). -/
def tableKeys (t : LabelTable) : List Nat := t.map Prod.fst

/-- Entry at an index, zero entry when out of range. -/
def tableAt (t : LabelTable) (i : Nat) : Nat × Label := t.getD i (0, zeroLabel)

/-- pairArray::insert(pos, key) followed by the caller filling the value slot:
inserts at `pos` when `pos ≤ count`, otherwise the source returns false and
the array is unchanged. -/
def pairArray_insert : LabelTable → Nat → Nat × Label → LabelTable
  | t, 0, e => e :: t
  | [], _+1, _ => []
  | x :: xs, pos+1, e => x :: pairArray_insert xs pos e

/-- pairArray::remove(pos): removes at `pos` when `pos < count`, otherwise
the array is unchanged. -/
def pairArray_remove : LabelTable → Nat → LabelTable
  | [], _ => []
  | _ :: xs, 0 => xs
  | x :: xs, pos+1 => x :: pairArray_remove xs pos

/-- The linear collision scan of Asm::GetLabel: from the binary-search index,
walk the run of equal hashes comparing names with same_str (case
insensitive); returns the index of the matching entry. -/
def getLabelScanIdx (t : LabelTable) (hash : Nat) (name : List Char) :
    Nat → Nat → Option Nat
  | 0, _ => none
  | n+1, index =>
    if index < t.length then
      if hash = (tableAt t index).1 then
        if same_str name (tableAt t index).2.label_name then some index
        else getLabelScanIdx t hash name n (index+1)
      else none
    else none

/-- The index of the entry Asm::GetLabel finds: binary search by fnv1a hash,
then scan the equal-hash run comparing full names.  The structural bound
`t.length` covers the scan, whose index only increases and stops at
`t.length`. -/
def GetLabelIdx (t : LabelTable) (label : List Char) : Option Nat :=
  getLabelScanIdx t (fnv1a label) label t.length
    (FindLabelIndex (fnv1a label) (tableKeys t) t.length)

/-- Asm::GetLabel (the source returns a pointer to the found record). -/
def GetLabel (t : LabelTable) (label : List Char) : Option Label :=
  match GetLabelIdx t label with
  | some i => some (tableAt t i).2
  | none => none

/-- Asm::AddLabel: insert a zeroed entry at the binary-search position for
the hash; returns the new table and the index of the inserted entry (the
source returns a pointer to the value slot). -/
def AddLabel (t : LabelTable) (hash : Nat) : LabelTable × Nat :=
  let index := FindLabelIndex hash (tableKeys t) t.length
  (pairArray_insert t index (hash, zeroLabel), index)

/-- Store a Label record through the pointer AddLabel/GetLabel returned: the
key at the index is unchanged, the value slot is replaced. -/
def setLabelAt : LabelTable → Nat → Label → LabelTable
  | [], _, _ => []
  | x :: xs, 0, v => (x.1, v) :: xs
  | x :: xs, i+1, v => x :: setLabelAt xs i v

/-- The inner `while (index < labels.count())` loop of Asm::FlushLocalLabels,
with fuel standing in for the C while loop: one fuel unit per iteration, and
`none` when the fuel runs out (the loop did not terminate within that many
iterations).  Note the loop body of the source does not advance `index` when
the names do not match, which this translation reproduces. -/
def flushScanLoop : Nat → LabelTable → List Char → Nat → Option LabelTable
  | 0, _, _, _ => none
  | fuel+1, t, name, index =>
    if index < t.length then
      if same_str_case name (tableAt t index).2.label_name then
        some (pairArray_remove t index)
      else
        flushScanLoop fuel t name index
    else some t

/-- One localLabels entry of Asm::FlushLocalLabels: the index is computed
once by FindLabelIndex, then the while loop runs. -/
def flushScan (fuel : Nat) (t : LabelTable) (name : List Char) : Option LabelTable :=
  flushScanLoop fuel t name (FindLabelIndex (fnv1a name) (tableKeys t) t.length)

/-- Asm::FlushLocalLabels: process and erase every tracked local label; the
localLabels vector is empty afterwards, so the result is just the label
table (or `none` when an inner scan never terminates). -/
def FlushLocalLabels (fuel : Nat) (t : LabelTable) :
    List (List Char) → Option LabelTable
  | [] => some t
  | n :: rest =>
    match flushScan fuel t n with
    | none => none
    | some t' => FlushLocalLabels fuel t' rest

/-! ## Expression evaluator (Asm::EvalExpression) -/

/-- EvalOperator from asm6502.cpp, "in order of precedence (last is highest
precedence)": the numeric enum value is the precedence the shunting-yard
comparison `op > p` uses. -/
def EVOP_NONE : Nat := 0
def EVOP_VAL : Nat := 1
def EVOP_LPR : Nat := 2
def EVOP_RPR : Nat := 3
def EVOP_ADD : Nat := 4
def EVOP_SUB : Nat := 5
def EVOP_MUL : Nat := 6
def EVOP_DIV : Nat := 7
def EVOP_AND : Nat := 8
def EVOP_OR : Nat := 9
def EVOP_EOR : Nat := 10
def EVOP_SHL : Nat := 11
def EVOP_SHR : Nat := 12

/-- Conversion of a 32-bit unsigned value to a C int (two's complement). -/
def toInt32 (n : Nat) : Int :=
  let m := n % 4294967296
  if m < 2147483648 then (m : Int) else (m : Int) - 4294967296

/-- C `<<` on int: multiply by a power of two (shift counts are nonnegative
and small in every defined execution). -/
def c_shl (a b : Int) : Int := a * 2 ^ b.toNat

/-- C `>>` on int as the usual arithmetic shift: floor division by a power of
two (Lean's Int division is floor division for positive divisors). -/
def c_shr (a b : Int) : Int := a / 2 ^ b.toNat

/-- One token of the EvalExpression scanner (the big switch over the first
character), applied to the expression after skip_whitespace.  Returns either
an early status (`STATUS_NOT_READY`, unknown character) or the operator, its
value (meaningful only for EVOP_VAL) and the unconsumed remainder.  A `>` or
`<` that is not doubled leaves the expression unconsumed with op EVOP_NONE,
exactly as the source switch does. -/
def readToken (labels : LabelTable) (pc scope_pc scope_end_pc : Int)
    (prev_op : Nat) (exp1 : List Char) : Except (Nat × Int) (Nat × Int × List Char) :=
  if get_first exp1 = '$' then
    .ok (EVOP_VAL, toInt32 (ahextoui_skip exp1.tail).1, (ahextoui_skip exp1.tail).2)
  else if get_first exp1 = '-' then .ok (EVOP_SUB, 0, exp1.tail)
  else if get_first exp1 = '+' then .ok (EVOP_ADD, 0, exp1.tail)
  else if get_first exp1 = '*' then
    -- asterisk means both multiply and current PC, disambiguated by prev_op
    if prev_op = EVOP_VAL ∨ prev_op = EVOP_RPR then .ok (EVOP_MUL, 0, exp1.tail)
    else .ok (EVOP_VAL, pc, exp1.tail)
  else if get_first exp1 = '/' then .ok (EVOP_DIV, 0, exp1.tail)
  else if get_first exp1 = '>' then
    if 2 ≤ exp1.length ∧ char_at exp1 1 = '>' then .ok (EVOP_SHR, 0, exp1.drop 2)
    else .ok (EVOP_NONE, 0, exp1)
  else if get_first exp1 = '<' then
    if 2 ≤ exp1.length ∧ char_at exp1 1 = '<' then .ok (EVOP_SHL, 0, exp1.drop 2)
    else .ok (EVOP_NONE, 0, exp1)
  else if get_first exp1 = '%' then
    if scope_end_pc < 0 then .error (STATUS_NOT_READY, 0)
    else .ok (EVOP_VAL, scope_end_pc, exp1.tail)
  else if get_first exp1 = '|' then .ok (EVOP_OR, 0, exp1.tail)
  else if get_first exp1 = '&' then .ok (EVOP_AND, 0, exp1.tail)
  else if get_first exp1 = '(' then .ok (EVOP_LPR, 0, exp1.tail)
  else if get_first exp1 = ')' then .ok (EVOP_RPR, 0, exp1.tail)
  else if get_first exp1 = '!' ∧ len_label exp1.tail = 0 then
    -- a lone '!' is the current scope address
    if scope_pc < 0 then .error (STATUS_NOT_READY, 0)
    else .ok (EVOP_VAL, scope_pc, exp1.tail)
  else if is_number (get_first exp1) then
    .ok (EVOP_VAL, (atoi_skip exp1).1, (atoi_skip exp1).2)
  else if get_first exp1 = '!' ∨ is_valid_label (get_first exp1) then
    match GetLabel labels (split_range_trim exp1).1 with
    | none => .error (STATUS_NOT_READY, 0)
    | some lab =>
      if lab.evaluated then .ok (EVOP_VAL, lab.value, (split_range_trim exp1).2)
      else .error (STATUS_NOT_READY, 0)
  else .error (ERROR_UNEXPECTED_CHARACTER_IN_EXPRESSION, 0)

/-- The shunting-yard step of EvalExpression for one token, parametrized by
the pop test `prec_pop op p` (the source pops while the stack top `p` is not
a left parenthesis and `op > p` does not hold, i.e. while `op ≤ p`).
Errors only on an unbalanced right parenthesis. -/
def shuntStepWith (prec_pop : Nat → Nat → Bool) (op : Nat) (value : Int)
    (numValues : Nat) (values : List Int) (ops op_stack : List Nat) :
    Except Nat (Nat × List Int × List Nat × List Nat) :=
  if op = EVOP_VAL then
    .ok (numValues + 1, values.set numValues value, ops ++ [EVOP_VAL], op_stack)
  else if op = EVOP_LPR then
    .ok (numValues, values, ops, EVOP_LPR :: op_stack)
  else if op = EVOP_RPR then
    match op_stack.dropWhile (fun p => !(p == EVOP_LPR)) with
    | [] => .error ERROR_UNBALANCED_RIGHT_PARENTHESIS
    | _ :: stack' =>
      .ok (numValues, values, ops ++ op_stack.takeWhile (fun p => !(p == EVOP_LPR)), stack')
  else
    .ok (numValues, values,
      ops ++ op_stack.takeWhile (fun p => !(p == EVOP_LPR) && prec_pop op p),
      op :: op_stack.dropWhile (fun p => !(p == EVOP_LPR) && prec_pop op p))

/-- The pop test the source uses: the numeric EvalOperator values compare
directly (`if (p==EVOP_LPR || op>p) break`), so each operator is its own
precedence level. -/
def evop_pop (op p : Nat) : Bool := op ≤ p

/-- The shunting-yard scanner loop of EvalExpression (`while (expression)`),
parametrized by the precedence pop test.  The C loop always terminates: every
iteration either consumes at least one character, or (for an undoubled `>` or
`<`) consumes nothing but strictly increases numOps+sp, which the capacity
checks keep below 64+64; fuel of 200*length+200 therefore covers every
terminating execution, and the fuel-out branch (which no such execution
reaches) reports the operator-capacity error.  The source checks the
capacities with `==` right after each push; `≤` first differs from `==` only
after the 64-entry C arrays have already overflowed (undefined behavior). -/
def evalShuntWith (prec_pop : Nat → Nat → Bool) (labels : LabelTable)
    (pc scope_pc scope_end_pc : Int) :
    Nat → List Char → Nat → Nat → List Int → List Nat → List Nat →
      Except (Nat × Int) (List Int × List Nat)
  | 0, _, _, _, _, _, _ => .error (ERROR_TOO_MANY_OPERATORS_IN_EXPRESSION, 0)
  | fuel+1, exp, prev_op, numValues, values, ops, op_stack =>
    if exp.isEmpty then
      -- end of expression: drain the operator stack into the RPN list
      .ok (values, ops ++ op_stack)
    else
      match readToken labels pc scope_pc scope_end_pc prev_op (skip_whitespace exp) with
      | .error e => .error e
      | .ok (op, value, rest) =>
        match shuntStepWith prec_pop op value numValues values ops op_stack with
        | .error st => .error (st, 0)
        | .ok (numValues', values', ops', op_stack') =>
          if MAX_EVAL_VALUES ≤ numValues' then
            .error (ERROR_TOO_MANY_VALUES_IN_EXPRESSION, 0)
          else if MAX_EVAL_OPER ≤ ops'.length ∨ MAX_EVAL_OPER ≤ op_stack'.length then
            .error (ERROR_TOO_MANY_OPERATORS_IN_EXPRESSION, 0)
          else
            evalShuntWith prec_pop labels pc scope_pc scope_end_pc fuel rest op
              numValues' values' ops' op_stack'

/-- The RPN fold of EvalExpression: `values` is the single array the source
uses as both value queue (read at valIdx) and value stack (written at sp).
An operator that is not EVOP_VAL and finds fewer than two stacked values
stops the fold (the `break` of the source); an operator code that is not a
binary operator is ERROR_EXPRESSION_OPERATION. -/
def evalOps : List Nat → List Int → Nat → Nat → Except Nat (List Int)
  | [], values, _, _ => .ok values
  | op :: restOps, values, sp, valIdx =>
    if op ≠ EVOP_VAL ∧ sp < 2 then .ok values
    else if op = EVOP_VAL then
      evalOps restOps (values.set sp (values.getD valIdx 0)) (sp+1) (valIdx+1)
    else if op = EVOP_ADD then
      evalOps restOps (values.set (sp-2) (values.getD (sp-2) 0 + values.getD (sp-1) 0)) (sp-1) valIdx
    else if op = EVOP_SUB then
      evalOps restOps (values.set (sp-2) (values.getD (sp-2) 0 - values.getD (sp-1) 0)) (sp-1) valIdx
    else if op = EVOP_MUL then
      evalOps restOps (values.set (sp-2) (values.getD (sp-2) 0 * values.getD (sp-1) 0)) (sp-1) valIdx
    else if op = EVOP_DIV then
      -- C int division truncates toward zero
      evalOps restOps (values.set (sp-2) (Int.tdiv (values.getD (sp-2) 0) (values.getD (sp-1) 0))) (sp-1) valIdx
    else if op = EVOP_AND then
      evalOps restOps (values.set (sp-2) (Int.land (values.getD (sp-2) 0) (values.getD (sp-1) 0))) (sp-1) valIdx
    else if op = EVOP_OR then
      evalOps restOps (values.set (sp-2) (Int.lor (values.getD (sp-2) 0) (values.getD (sp-1) 0))) (sp-1) valIdx
    else if op = EVOP_EOR then
      evalOps restOps (values.set (sp-2) (Int.xor (values.getD (sp-2) 0) (values.getD (sp-1) 0))) (sp-1) valIdx
    else if op = EVOP_SHL then
      evalOps restOps (values.set (sp-2) (c_shl (values.getD (sp-2) 0) (values.getD (sp-1) 0))) (sp-1) valIdx
    else if op = EVOP_SHR then
      evalOps restOps (values.set (sp-2) (c_shr (values.getD (sp-2) 0) (values.getD (sp-1) 0))) (sp-1) valIdx
    else .error ERROR_EXPRESSION_OPERATION

/-- Fuel that covers every terminating execution of the scanner loop (see
evalShuntWith). -/
def evalFuel (exp : List Char) : Nat := 200 * exp.length + 200

/-- Asm::EvalExpression with a chosen precedence pop test: leading `>` or `<`
selects the high or low byte of the final result; the value array starts with
values[0] = 0 (the source leaves the other 31 slots uninitialized but writes
each before reading it); the final result is values[0] after the fold.
The hi-byte filter `(val>>8)&0xff` is floor division by 256 then mod 256, and
`val&0xff` is mod 256, both as two's-complement C int operations. -/
def EvalExpressionWith (prec_pop : Nat → Nat → Bool) (labels : LabelTable)
    (expression : List Char) (pc scope_pc scope_end_pc : Int) : Nat × Int :=
  match evalShuntWith prec_pop labels pc scope_pc scope_end_pc
      (evalFuel expression)
      (if char_at expression 0 = '>' ∨ char_at expression 0 = '<'
       then expression.tail else expression)
      EVOP_NONE 0 (List.replicate MAX_EVAL_VALUES 0) [] [] with
  | .error e => e
  | .ok (values, ops) =>
    match evalOps ops values 0 0 with
    | .error st => (st, 0)
    | .ok values2 =>
      (STATUS_OK,
        if char_at expression 0 = '>' then ((values2.getD 0 0) / 256) % 256
        else if char_at expression 0 = '<' then (values2.getD 0 0) % 256
        else values2.getD 0 0)

/-- Asm::EvalExpression itself: the source precedence, i.e. the raw
EvalOperator enum values. -/
def EvalExpression (labels : LabelTable) (expression : List Char)
    (pc scope_pc scope_end_pc : Int) : Nat × Int :=
  EvalExpressionWith evop_pop labels expression pc scope_pc scope_end_pc

/-- Modelled from the spec: the precedence tier of the spec sentence
"Precedence order (low to high): add/sub, then the remaining
bitwise/shift/mul/div at one flat tier above them". -/
def spec_tier (op : Nat) : Nat := if op = EVOP_ADD ∨ op = EVOP_SUB then 0 else 1

/-- Modelled from the spec: the pop test of the spec's two-tier precedence
with "strict left-to-right associativity within a tier" (an incoming operator
pops stacked operators of its own tier or higher). -/
def spec_tier_pop (op p : Nat) : Bool := spec_tier op ≤ spec_tier p

/-- Modelled from the spec: the evaluator as the spec's precedence sentence
describes it, identical to EvalExpression except for the precedence
comparison. -/
def SpecTierEvalExpression (labels : LabelTable) (expression : List Char)
    (pc scope_pc scope_end_pc : Int) : Nat × Int :=
  EvalExpressionWith spec_tier_pop labels expression pc scope_pc scope_end_pc

/-! ## Addressing modes, opcode groups and AddOpcode -/

/-- AddressingMode enum values from asm6502.cpp. -/
def AM_REL_ZP_X : Nat := 0
def AM_ZP : Nat := 1
def AM_IMMEDIATE : Nat := 2
def AM_ABSOLUTE : Nat := 3
def AM_REL_ZP_Y : Nat := 4
def AM_ZP_X : Nat := 5
def AM_ABSOLUTE_Y : Nat := 6
def AM_ABSOLUTE_X : Nat := 7
def AM_RELATIVE : Nat := 8
def AM_ACCUMULATOR : Nat := 9
def AM_NONE : Nat := 10
def AM_INVALID : Nat := 11

/-- CODE_ARG enum values from asm6502.cpp. -/
def CA_NONE : Nat := 0
def CA_ONE_BYTE : Nat := 1
def CA_TWO_BYTES : Nat := 2
def CA_BRANCH : Nat := 3

/-- OP_GROUP enum values from asm6502.cpp. -/
def OPG_SUBROUT : Nat := 0
def OPG_CC01 : Nat := 1
def OPG_CC10 : Nat := 2
def OPG_STACK : Nat := 3
def OPG_BRANCH : Nat := 4
def OPG_FLAG : Nat := 5
def OPG_CC00 : Nat := 6
def OPG_TRANS : Nat := 7

/-- OP_INDICES from asm6502.cpp. -/
def OPI_JSR : Nat := 1
def OPI_LDX : Nat := 5
def OPI_STX : Nat := 4
def OPI_STA : Nat := 4
def OPI_JMP : Nat := 1

/-- aMulAddGroup from asm6502.cpp: (multiplier, base) per group. -/
def aMulAddGroup : List (Nat × Nat) :=
  [(0x20, 0x00), (0x20, 0x01), (0x20, 0x02), (0x20, 0x08),
   (0x20, 0x10), (0x20, 0x18), (0x20, 0x20), (0x10, 0x8a)]

def CC00ModeAdd : List Nat := [0xff, 4, 0, 12, 0xff, 20, 0xff, 28]
def CC00Mask : List Nat := [0x0a, 0x08, 0x08, 0x2a, 0xae, 0x0e, 0x0e]
def CC10ModeAdd : List Nat := [0xff, 4, 0, 12, 0xff, 20, 0xff, 28]
def CC10Mask : List Nat := [0xaa, 0xaa, 0xaa, 0xaa, 0x2a, 0xae, 0xaa, 0xaa]

/-- Low byte of a C int stored into an unsigned char (two's complement). -/
def byteOf (v : Int) : Nat := (v % 256).toNat

/-- base_opcode of Asm::AddOpcode:
`aMulAddGroup[group][1] + index * aMulAddGroup[group][0]`. -/
def opcodeBase (group index : Nat) : Nat :=
  (aMulAddGroup.getD group (0, 0)).2 + index * (aMulAddGroup.getD group (0, 0)).1

/-- The zero-page narrowing of Asm::AddOpcode (lines 1193-1205): when the
operand value is known now, non-negative and below 0x100, AM_ABSOLUTE becomes
AM_ZP and AM_ABSOLUTE_X becomes AM_ZP_X, unconditionally on the instruction. -/
def opcodeNarrow (addrMode : Nat) (evalLater : Bool) (value : Int) : Nat :=
  if evalLater = false ∧ 0 ≤ value ∧ value < 0x100 then
    if addrMode = AM_ABSOLUTE then AM_ZP
    else if addrMode = AM_ABSOLUTE_X then AM_ZP_X
    else addrMode
  else addrMode

/-- The per-group addressing-mode analysis of Asm::AddOpcode (the big switch
on `group`), returning (status, opcode byte, CODE_ARG).  Groups outside 0..7
keep CA_NONE and STATUS_OK like the C switch without a default case. -/
def opcodeAnalyze (group index addrMode : Nat) : Nat × Nat × Nat :=
  if group = OPG_BRANCH then
    if addrMode ≠ AM_ABSOLUTE then
      (ERROR_INVALID_ADDRESSING_MODE_FOR_BRANCH, opcodeBase group index % 256, CA_NONE)
    else (STATUS_OK, opcodeBase group index % 256, CA_BRANCH)
  else if group = OPG_SUBROUT then
    if index = 1 then
      if addrMode ≠ AM_ABSOLUTE then
        (ERROR_INVALID_ADDRESSING_MODE_FOR_BRANCH, opcodeBase group index % 256, CA_NONE)
      else (STATUS_OK, opcodeBase group index % 256, CA_TWO_BYTES)
    else (STATUS_OK, opcodeBase group index % 256, CA_NONE)
  else if group = OPG_STACK ∨ group = OPG_FLAG ∨ group = OPG_TRANS then
    (STATUS_OK, opcodeBase group index % 256, CA_NONE)
  else if group = OPG_CC00 then
    -- jump relative exception: JMP (abs) gets base+0x20 and absolute mode
    if addrMode = AM_RELATIVE ∧ index = OPI_JMP then
      if (CC00Mask.getD index 0).testBit AM_ABSOLUTE = false then
        (ERROR_BAD_ADDRESSING_MODE, opcodeBase group index % 256, CA_NONE)
      else
        ((STATUS_OK, (opcodeBase group index + 0x20 + CC00ModeAdd.getD AM_ABSOLUTE 0) % 256,
          CA_TWO_BYTES))
    else if 7 < addrMode ∨ (CC00Mask.getD index 0).testBit addrMode = false then
      (ERROR_BAD_ADDRESSING_MODE, opcodeBase group index % 256, CA_NONE)
    else
      (STATUS_OK, (opcodeBase group index + CC00ModeAdd.getD addrMode 0) % 256,
        if addrMode = AM_ABSOLUTE ∨ addrMode = AM_ABSOLUTE_Y ∨ addrMode = AM_ABSOLUTE_X
        then CA_TWO_BYTES else CA_ONE_BYTE)
  else if group = OPG_CC01 then
    if 7 < addrMode ∨ (addrMode = AM_IMMEDIATE ∧ index = OPI_STA) then
      (ERROR_BAD_ADDRESSING_MODE, opcodeBase group index % 256, CA_NONE)
    else
      (STATUS_OK, (opcodeBase group index + addrMode * 4) % 256,
        if addrMode = AM_ABSOLUTE ∨ addrMode = AM_ABSOLUTE_Y ∨ addrMode = AM_ABSOLUTE_X
        then CA_TWO_BYTES else CA_ONE_BYTE)
  else if group = OPG_CC10 then
    if addrMode = AM_NONE ∨ addrMode = AM_ACCUMULATOR then
      if 4 ≤ index then (ERROR_BAD_ADDRESSING_MODE, opcodeBase group index % 256, CA_NONE)
      else (STATUS_OK, (opcodeBase group index + 8) % 256, CA_NONE)
    else if 7 < addrMode ∨ (CC10Mask.getD index 0).testBit addrMode = false then
      (ERROR_BAD_ADDRESSING_MODE, opcodeBase group index % 256, CA_NONE)
    else
      (STATUS_OK, (opcodeBase group index + CC10ModeAdd.getD addrMode 0) % 256,
        if addrMode = AM_IMMEDIATE ∨ addrMode = AM_ZP ∨ addrMode = AM_ZP_X
        then CA_ONE_BYTE else CA_TWO_BYTES)
  else (STATUS_OK, opcodeBase group index % 256, CA_NONE)

/-- LateEvalType from asm6502.cpp. -/
inductive LateEvalType where
  | LET_LABEL
  | LET_ABS_REF
  | LET_BRANCH
  | LET_BYTE
deriving DecidableEq

/-- LateEval from asm6502.cpp; `target` is the offset into the output buffer
(a raw pointer in the source); `source_file`, used only for diagnostics, is
omitted. -/
structure LateEval where
  target : Nat
  address : Int
  scope : Int
  label : List Char
  expression : List Char
  type : LateEvalType
deriving DecidableEq

/-- The emission phase of Asm::AddOpcode (lines 1302-1337) combined with the
narrowing and the group analysis: the slice of AddOpcode after
GetAddressMode and the operand evaluation.  `eval` is `some v` when
EvalExpression returned STATUS_OK with value v, and `none` for
STATUS_NOT_READY (evalLater; other evaluation errors return before this
point; the value defaults to 0 as in the source).  Returns (status, emitted
bytes, new address, registered late evaluation).  Note the branch arm
increments the address before the range check, so even the out-of-range
error path keeps the incremented address. -/
def AddOpcodeEncode (group index addrMode0 : Nat) (eval : Option Int)
    (address : Int) (curr : Nat) (scope : Int) (expression : List Char) :
    Nat × List Nat × Int × Option LateEval :=
  match opcodeAnalyze group index (opcodeNarrow addrMode0 eval.isNone (eval.getD 0)) with
  | (status, opcode, codeArg) =>
    if status ≠ STATUS_OK then (status, [], address, none)
    else if codeArg = CA_BRANCH then
      if eval.isNone then
        (STATUS_OK, [opcode, 0], address + 2,
          some ⟨curr + 1, address + 2, scope, [], expression, .LET_BRANCH⟩)
      else if eval.getD 0 - (address + 2) < -128 ∨ 127 < eval.getD 0 - (address + 2) then
        (ERROR_BRANCH_OUT_OF_RANGE, [], address + 2, none)
      else
        (STATUS_OK, [opcode, byteOf (eval.getD 0 - (address + 2))], address + 2, none)
    else if codeArg = CA_ONE_BYTE then
      (STATUS_OK, [opcode, byteOf (eval.getD 0)], address + 2,
        if eval.isNone then some ⟨curr + 1, address, scope, [], expression, .LET_BYTE⟩
        else none)
    else if codeArg = CA_TWO_BYTES then
      (STATUS_OK, [opcode, byteOf (eval.getD 0), byteOf (c_shr (eval.getD 0) 8)],
        address + 3,
        if eval.isNone then some ⟨curr + 1, address, scope, [], expression, .LET_ABS_REF⟩
        else none)
    else (STATUS_OK, [opcode], address + 1, none)

/-! ## Late evaluation queue (Asm::CheckLateEval) -/

/-- Write one byte of the output buffer. -/
def writeByte (out : Nat → Nat) (i v : Nat) : Nat → Nat :=
  fun j => if j = i then v else out j

/-- The scope-end relevance scan of CheckLateEval: walk `%` occurrences,
skipping doubled `%%`, and report whether a lone `%` occurs.  One fuel unit
per loop iteration; each iteration moves the scan position forward by at
least two, so `length + 1` fuel covers the loop. -/
def scopeEndCheck (e : List Char) : Nat → Nat → Bool
  | 0, _ => false
  | fuel+1, gt_pos =>
    if find_at e '%' gt_pos < 0 then false
    else if char_at e ((find_at e '%' gt_pos).toNat + 1) = '%' then
      scopeEndCheck e fuel ((find_at e '%' gt_pos).toNat + 2)
    else true

/-- Whether an expression references the scope-end symbol (a `%` not doubled
into `%%`). -/
def scopeEndRelevant (e : List Char) : Bool := scopeEndCheck e (e.length + 1) 0

/-- The per-entry relevance test of CheckLateEval: retry everything once the
new-label list has filled up to MAX_LABELS_EVAL_ALL, else retry when the
expression contains one of the newly known label names, else (when a scope
just closed) when it references the scope-end symbol. -/
def lateEvalCheckFlag (newLabels : List (List Char)) (scope_end : Int)
    (e : List Char) : Bool :=
  if newLabels.length = MAX_LABELS_EVAL_ALL then true
  else if newLabels.any (fun l => 0 ≤ find_sub e l) then true
  else if 0 < scope_end then scopeEndRelevant e else false

/-- The inner `while (i != lateEval.end())` scan of Asm::CheckLateEval over
the remaining queue entries, carrying (labels, output, kept entries,
new-label list, evaluated_label flag).  A resolved entry is erased; a branch
whose displacement is out of range, or a label entry whose label vanished,
aborts the whole call with the queue as it stands. -/
def checkLateScan (scope_end : Int) :
    List LateEval → LabelTable → (Nat → Nat) → List LateEval →
      List (List Char) → Bool →
      Nat × LabelTable × (Nat → Nat) × List LateEval × List (List Char) × Bool
  | [], labels, out, kept, newLabels, evl => (STATUS_OK, labels, out, kept, newLabels, evl)
  | i :: rest, labels, out, kept, newLabels, evl =>
    if lateEvalCheckFlag newLabels scope_end i.expression then
      if (EvalExpression labels i.expression i.address i.scope scope_end).1 = STATUS_OK then
        match i.type with
        | .LET_BRANCH =>
          if (EvalExpression labels i.expression i.address i.scope scope_end).2 - i.address < -128 ∨
             127 < (EvalExpression labels i.expression i.address i.scope scope_end).2 - i.address then
            (ERROR_BRANCH_OUT_OF_RANGE, labels, out, kept ++ (i :: rest), newLabels, evl)
          else
            checkLateScan scope_end rest labels
              (writeByte out i.target
                (byteOf ((EvalExpression labels i.expression i.address i.scope scope_end).2 - i.address)))
              kept newLabels evl
        | .LET_BYTE =>
          checkLateScan scope_end rest labels
            (writeByte out i.target
              (byteOf (EvalExpression labels i.expression i.address i.scope scope_end).2))
            kept newLabels evl
        | .LET_ABS_REF =>
          checkLateScan scope_end rest labels
            (writeByte
              (writeByte out i.target
                (byteOf (EvalExpression labels i.expression i.address i.scope scope_end).2))
              (i.target + 1)
              (byteOf (c_shr (EvalExpression labels i.expression i.address i.scope scope_end).2 8)))
            kept newLabels evl
        | .LET_LABEL =>
          match GetLabelIdx labels i.label with
          | none => (ERROR_LABEL_MISPLACED_INTERNAL, labels, out, kept ++ (i :: rest), newLabels, evl)
          | some idx =>
            checkLateScan scope_end rest
              (setLabelAt labels idx
                { (tableAt labels idx).2 with
                    value := (EvalExpression labels i.expression i.address i.scope scope_end).2,
                    evaluated := true })
              out kept
              (if newLabels.length < MAX_LABELS_EVAL_ALL
               then newLabels ++ [(tableAt labels idx).2.label_name] else newLabels)
              true
      else checkLateScan scope_end rest labels out (kept ++ [i]) newLabels evl
    else checkLateScan scope_end rest labels out (kept ++ [i]) newLabels evl

/-- Asm::CheckLateEval.  The source wraps the scan in
`while (evaluated_label)`, but the iterator `i` is initialized once, before
that outer loop, and is never reset to `lateEval.begin()`: after the first
scan `i == lateEval.end()`, so every later pass visits no entries and the
outer loop exits on its next test.  One scan is therefore the whole call,
which this translation makes explicit.  Returns (status, labels, output,
remaining queue). -/
def CheckLateEval (labels : LabelTable) (out : Nat → Nat) (queue : List LateEval)
    (added_label : List Char) (scope_end : Int) :
    Nat × LabelTable × (Nat → Nat) × List LateEval :=
  match checkLateScan scope_end queue labels out []
      (if added_label.isEmpty then [] else [added_label]) false with
  | (st, labels2, out2, kept, _, _) => (st, labels2, out2, kept)

/-! ## Label definition step of BuildSegment, ALIGN, and the error skeleton -/

/-- AddLabel followed by the field stores of BuildSegment lines 1479-1485:
the new entry's name, cleared expression, value = current address,
evaluated, pc_relative, not zero_page. -/
def labelDefineTable (t : LabelTable) (label : List Char) (address : Int) : LabelTable :=
  setLabelAt (AddLabel t (fnv1a label)).1 (AddLabel t (fnv1a label)).2
    ⟨label, [], address, true, false, true⟩

/-- The AD_ALIGN arm of Asm::ApplyDirective (lines 1063-1077), sliced after
the operand evaluation: given EvalExpression's (status, value), produce
(error, new address, emitted fill bytes).  The source computes the pad as
`(address + value-1) % value` and appends that many zero bytes. -/
def ApplyDirectiveAlign (address : Nat) (status : Nat) (value : Int) :
    Nat × Nat × List Nat :=
  if status = STATUS_NOT_READY then
    (ERROR_ALIGN_MUST_EVALUATE_IMMEDIATELY, address, [])
  else if status = STATUS_OK ∧ 0 < value then
    (STATUS_OK, address + (((address : Int) + value - 1) % value).toNat,
      List.replicate (((address : Int) + value - 1) % value).toNat 0)
  else (STATUS_OK, address, [])

/-- The smallest multiple of v at or above the address (what the ALIGN
documentation line "align address to multiple of value" asks for). -/
def alignUpTo (address : Nat) (v : Nat) : Nat :=
  ((address + v - 1) / v) * v

/-- The statement-error skeleton of Asm::BuildSegment (lines 1496-1510):
each statement is abstracted to the StatusCode its processing produced; a
status above ERROR_STOP_PROCESSING_ON_HIGHER breaks out of the inner
`while (line)` loop only, abandoning the rest of the current line; any other
status is reset to STATUS_OK and the same line continues.  Returns the
statements executed, in order. -/
def buildSegmentLine : List Nat → List Nat
  | [] => []
  | s :: rest =>
    s :: (if ERROR_STOP_PROCESSING_ON_HIGHER < s then [] else buildSegmentLine rest)

/-- The outer `while (read_source.line())` loop of BuildSegment over the
skeleton: the next line is always fetched, whatever the previous line's
statements produced. -/
def buildSegmentRun (lines : List (List Nat)) : List Nat :=
  (lines.map buildSegmentLine).flatten

/-- The statuses BuildSegment reports to stderr (`error > STATUS_NOT_READY`)
among the executed statements. -/
def buildSegmentReported (lines : List (List Nat)) : List Nat :=
  (buildSegmentRun lines).filter (fun s => STATUS_NOT_READY < s)

/-! ## A concrete CheckLateEval scenario (for claim C4)

A program shaped like `lda #B` / `B = A` / `A:` queues a LET_BYTE entry whose
expression names B, then a LET_LABEL entry for B whose expression names A;
defining the label A then calls CheckLateEval with added_label = "A". -/

/-- The byte operand of `lda #B`, queued at output offset 5 while B was
unknown. -/
def c4_byteEntry : LateEval := ⟨5, 0x1000, 0x1000, [], ['B'], .LET_BYTE⟩

/-- The queued assignment `B = A`, deferred while A was unknown. -/
def c4_labelEntry : LateEval := ⟨0, 0x1000, 0x1000, ['B'], ['A'], .LET_LABEL⟩

/-- The label table after `B = A` was parsed: B present, unevaluated, with
expression "A". -/
def c4_btable : LabelTable :=
  setLabelAt (AddLabel [] (fnv1a ['B'])).1 (AddLabel [] (fnv1a ['B'])).2
    ⟨['B'], ['A'], 0, false, false, false⟩

/-- The label table once `A:` is defined at address 0x1000. -/
def c4_table : LabelTable := labelDefineTable c4_btable ['A'] 0x1000

/-- The CheckLateEval call made when A is defined: the output buffer is
filled with 0xEE so an untouched byte is visible. -/
def c4_run : Nat × LabelTable × (Nat → Nat) × List LateEval :=
  CheckLateEval c4_table (fun _ => 0xEE) [c4_byteEntry, c4_labelEntry] ['A'] (-1)

theorem findFirstIndex_le (hash : Nat) (table : List Nat) (i : Nat) :
    findFirstIndex hash table i ≤ i := by
  induction i with
  | zero => simp [findFirstIndex]
  | succ n ih =>
    simp only [findFirstIndex]
    split
    · exact Nat.le_trans ih (Nat.le_succ n)
    · exact Nat.le_refl _

theorem findFirstIndex_spec (hash : Nat) (table : List Nat)
    (hs : SortedLe table) :
    ∀ i, i < table.length → table.getD i 0 = hash →
      table.getD (findFirstIndex hash table i) 0 = hash ∧
      ∀ j, j < findFirstIndex hash table i → table.getD j 0 ≠ hash := by
  intro i
  induction i with
  | zero =>
    intro _ hv
    constructor
    · simpa [findFirstIndex] using hv
    · intro j hj
      simp [findFirstIndex] at hj
  | succ n ih =>
    intro hn hv
    simp only [findFirstIndex]
    by_cases hcase : table.getD n 0 = hash
    · rw [if_pos hcase]
      exact ih (Nat.lt_of_succ_lt hn) hcase
    · rw [if_neg hcase]
      refine ⟨hv, ?_⟩
      intro j hj hcontra
      have hjn : j ≤ n := Nat.lt_succ_iff.mp hj
      -- sorted: table[j] ≤ table[n] ≤ table[n+1] = hash, and table[j] = hash
      -- forces table[n] = hash, contradiction
      have h1 : table.getD j 0 ≤ table.getD n 0 :=
        hs j n hjn (Nat.lt_of_succ_lt hn)
      have h2 : table.getD n 0 ≤ table.getD (n+1) 0 :=
        hs n (n+1) (Nat.le_succ n) hn
      rw [hv] at h2
      rw [hcontra] at h1
      exact hcase (Nat.le_antisymm h2 h1)

theorem findLabelFixup_id (hash : Nat) (table : List Nat) (max count : Nat)
    (hlow : ∀ j, j < count → table.getD j 0 < hash)
    (hhigh : ∀ j, count ≤ j → j < table.length → hash < table.getD j 0)
    (hmax : max ≤ table.length) :
    findLabelFixup hash table max count = count := by
  unfold findLabelFixup
  have hc1 : ¬(count < max ∧ table.getD count 0 < hash) := by
    rintro ⟨hc, hv⟩
    have := hhigh count (Nat.le_refl _) (by omega)
    omega
  rw [if_neg hc1]
  have hc2 : ¬(0 < count ∧ hash < table.getD (count-1) 0) := by
    rintro ⟨hc, hv⟩
    have := hlow (count-1) (by omega)
    omega
  rw [if_neg hc2]

theorem findLabelAux_present (hash : Nat) (table : List Nat)
    (hs : SortedLe table) (max : Nat) :
    ∀ n first count, count - first ≤ n →
      count ≤ table.length →
      (∃ i, first ≤ i ∧ i < count ∧ table.getD i 0 = hash) →
      findLabelAux hash table max n first count < table.length ∧
      table.getD (findLabelAux hash table max n first count) 0 = hash ∧
      ∀ j, j < findLabelAux hash table max n first count → table.getD j 0 ≠ hash := by
  intro n
  induction n with
  | zero =>
    intro first count hn _ hex
    obtain ⟨i, hfi, hic, _⟩ := hex
    omega
  | succ n ih =>
    intro first count hn hlen hex
    obtain ⟨i, hfi, hic, hiv⟩ := hex
    have hfc : first < count := Nat.lt_of_le_of_lt hfi hic
    have hindex1 : first ≤ (first + count) / 2 := by omega
    have hindex2 : (first + count) / 2 < count := by omega
    simp only [findLabelAux]
    rw [if_pos hfc]
    by_cases heq : hash = table.getD ((first + count) / 2) 0
    · rw [if_pos heq]
      have hffle := findFirstIndex_le hash table ((first + count) / 2)
      have hff := findFirstIndex_spec hash table hs _
        (Nat.lt_of_lt_of_le hindex2 hlen) heq.symm
      exact ⟨by omega, hff.1, hff.2⟩
    · rw [if_neg heq]
      by_cases hlt : table.getD ((first + count) / 2) 0 < hash
      · rw [if_pos hlt]
        refine ih _ count (by omega) hlen ?_
        refine ⟨i, ?_, hic, hiv⟩
        -- i cannot be ≤ index: sorted gives table[i] ≤ table[index] < hash
        by_contra hcon
        push_neg at hcon
        have : table.getD i 0 ≤ table.getD ((first + count) / 2) 0 :=
          hs i _ (by omega) (Nat.lt_of_lt_of_le hindex2 hlen)
        omega
      · rw [if_neg hlt]
        refine ih first _ (by omega)
          (Nat.le_trans (Nat.le_of_lt hindex2) hlen) ?_
        refine ⟨i, hfi, ?_, hiv⟩
        -- i cannot be ≥ index: sorted gives hash < table[index] ≤ table[i]
        by_contra hcon
        push_neg at hcon
        have : table.getD ((first + count) / 2) 0 ≤ table.getD i 0 :=
          hs _ i (by omega) (Nat.lt_of_lt_of_le hic hlen)
        have hne : table.getD ((first + count) / 2) 0 ≠ hash := fun he => heq he.symm
        omega

theorem findLabelAux_absent (hash : Nat) (table : List Nat)
    (hs : SortedLe table) (max : Nat) (hmax : max ≤ table.length)
    (habs : ∀ j, j < table.length → table.getD j 0 ≠ hash) :
    ∀ n first count, count - first ≤ n →
      first ≤ count → count ≤ max →
      (∀ j, j < first → table.getD j 0 < hash) →
      (∀ j, count ≤ j → j < table.length → hash < table.getD j 0) →
      findLabelAux hash table max n first count ≤ max ∧
      (∀ j, j < findLabelAux hash table max n first count → table.getD j 0 < hash) ∧
      (∀ j, findLabelAux hash table max n first count ≤ j → j < table.length →
        hash < table.getD j 0) := by
  intro n
  induction n with
  | zero =>
    intro first count hn hfc hcm hlow hhigh
    have hfe : first = count := by omega
    simp only [findLabelAux]
    rw [findLabelFixup_id hash table max count
      (fun j hj => hlow j (by omega)) hhigh hmax]
    exact ⟨hcm, fun j hj => hlow j (by omega), fun j hj hjl => hhigh j hj hjl⟩
  | succ n ih =>
    intro first count hn hfc hcm hlow hhigh
    simp only [findLabelAux]
    by_cases hlt : first < count
    · rw [if_pos hlt]
      have hindex1 : first ≤ (first + count) / 2 := by omega
      have hindex2 : (first + count) / 2 < count := by omega
      have hinlen : (first + count) / 2 < table.length := by omega
      have hmid : table.getD ((first + count) / 2) 0 ≠ hash := habs _ hinlen
      rw [if_neg (fun he => hmid he.symm)]
      by_cases hmlt : table.getD ((first + count) / 2) 0 < hash
      · rw [if_pos hmlt]
        refine ih _ count (by omega) (by omega) hcm ?_ hhigh
        intro j hj
        have : table.getD j 0 ≤ table.getD ((first + count) / 2) 0 :=
          hs j _ (by omega) hinlen
        omega
      · rw [if_neg hmlt]
        refine ih first _ (by omega) (by omega) (by omega) hlow ?_
        intro j hj hjlen
        have : table.getD ((first + count) / 2) 0 ≤ table.getD j 0 :=
          hs _ j hj hjlen
        omega
    · rw [if_neg hlt]
      have hfe : first = count := by omega
      rw [findLabelFixup_id hash table max count
        (fun j hj => hlow j (by omega)) hhigh hmax]
      exact ⟨hcm, fun j hj => hlow j (by omega), fun j hj hjl => hhigh j hj hjl⟩

/-- Bridge from a decidable chain condition to the index-based sortedness. -/
theorem sortedLe_of_chain (t : List Nat) (h : List.Chain' (· ≤ ·) t) :
    SortedLe t := by
  intro i j hij hjl
  rcases Nat.eq_or_lt_of_le hij with he | hl
  · subst he; exact Nat.le_refl _
  · have hp : List.Pairwise (· ≤ ·) t := List.chain'_iff_pairwise.mp h
    have hg := List.pairwise_iff_get.mp hp ⟨i, by omega⟩ ⟨j, hjl⟩ hl
    have hi : t.getD i 0 = t.get ⟨i, by omega⟩ := by
      rw [List.getD_eq_getElem?_getD, List.getElem?_eq_getElem (by omega)]
      rfl
    have hj2 : t.getD j 0 = t.get ⟨j, hjl⟩ := by
      rw [List.getD_eq_getElem?_getD, List.getElem?_eq_getElem hjl]
      rfl
    rw [hi, hj2]
    exact hg

/-- C8: over a hash array sorted ascending, FindLabelIndex returns the lowest
index of the contiguous run equal to a present hash, and for an absent hash it
returns the position at which inserting the hash keeps the array sorted (all
keys before it are smaller, all keys from it on are larger). -/
theorem C8_FindLabelIndex_sorted_search (table : List Nat) (hash : Nat)
    (hs : SortedLe table) :
    ((∃ i, i < table.length ∧ table.getD i 0 = hash) →
      FindLabelIndex hash table table.length < table.length ∧
      table.getD (FindLabelIndex hash table table.length) 0 = hash ∧
      ∀ j, j < FindLabelIndex hash table table.length → table.getD j 0 ≠ hash) ∧
    ((∀ i, i < table.length → table.getD i 0 ≠ hash) →
      FindLabelIndex hash table table.length ≤ table.length ∧
      (∀ j, j < FindLabelIndex hash table table.length → table.getD j 0 < hash) ∧
      (∀ j, FindLabelIndex hash table table.length ≤ j → j < table.length →
        hash < table.getD j 0)) := by
  constructor
  · rintro ⟨i, hi, hv⟩
    exact findLabelAux_present hash table hs table.length table.length 0
      table.length (by omega) (Nat.le_refl _) ⟨i, Nat.zero_le _, hi, hv⟩
  · intro habs
    exact findLabelAux_absent hash table hs table.length (Nat.le_refl _) habs
      table.length 0 table.length (by omega) (Nat.zero_le _) (Nat.le_refl _)
      (by intro j hj; omega) (by intro j hj hjl; omega)

/-! ## Claim C1: expression precedence -/

/-- C1 counterexample: the evaluator does not implement the claimed two-tier
precedence with left-to-right associativity inside a tier.  On `7*3/2` the
claimed tier semantics (SpecTierEvalExpression, modelled from the spec
sentence) gives (7*3)/2 = 10, while EvalExpression gives 7*(3/2) = 7 because
`/` (EVOP_DIV = 7) ranks strictly above `*` (EVOP_MUL = 6).  And on `1+2*3`
the evaluator returns 7 = 1+(2*3): multiply *is* higher than add, refuting
the claim's "multiply not higher than add" reading (which would give
(1+2)*3 = 9, the value of `(1+2)*3`). -/
theorem C1_counterexample_per_operator_precedence :
    EvalExpression [] ['7','*','3','/','2'] 0 0 (-1) = (STATUS_OK, 7) ∧
    SpecTierEvalExpression [] ['7','*','3','/','2'] 0 0 (-1) = (STATUS_OK, 10) ∧
    EvalExpression [] ['1','+','2','*','3'] 0 0 (-1) = (STATUS_OK, 7) ∧
    EvalExpression [] ['(','1','+','2',')','*','3'] 0 0 (-1) = (STATUS_OK, 9) := by
  decide

/-- C1 amended: EvalExpression gives every operator its own precedence level,
the EvalOperator enum value (`+` < `-` < `*` < `/` < `&` < `|` < `^` < `<<`
< `>>`), an incoming operator popping stacked operators of equal or higher
level; so multiply binds tighter than add (for single digits,
`a+b*c` = a+(b*c)), a later operator of a higher level binds tighter inside
the spec's "flat tier" (`7*3/2` = 7*(3/2) = 7), repeats of one operator
associate left to right (`8/2/2` = (8/2)/2 = 2, `10-2-3` = (10-2)-3 = 5),
and parentheses override (`(1+2)*3` = 9). -/
theorem C1_amended_enum_precedence :
    (∀ a b c : Fin 5,
      EvalExpression []
        [Char.ofNat (48 + a.val), '+', Char.ofNat (48 + b.val), '*', Char.ofNat (48 + c.val)]
        0 0 (-1)
        = (STATUS_OK, (a.val : Int) + (b.val : Int) * (c.val : Int))) ∧
    EvalExpression [] ['7','*','3','/','2'] 0 0 (-1) = (STATUS_OK, 7) ∧
    EvalExpression [] ['8','/','2','/','2'] 0 0 (-1) = (STATUS_OK, 2) ∧
    EvalExpression [] ['1','0','-','2','-','3'] 0 0 (-1) = (STATUS_OK, 5) ∧
    EvalExpression [] ['(','1','+','2',')','*','3'] 0 0 (-1) = (STATUS_OK, 9) := by
  decide

/-! ## Claim C3: zero-page narrowing -/

/-- C3 counterexample: the claim says narrowing "never turns a legal
absolute-only encoding (e.g. a branch target or JMP in the zero page) into
an addressing-mode error", but `JMP $10` (group OPG_CC00, index OPI_JMP,
parsed mode AM_ABSOLUTE, operand known to be 0x10 < 0x100) is narrowed to
AM_ZP, which the JMP mode mask rejects: ERROR_BAD_ADDRESSING_MODE. -/
theorem C3_counterexample_jmp_zero_page :
    AddOpcodeEncode OPG_CC00 OPI_JMP AM_ABSOLUTE (some 0x10) 0x1000 0 0x1000 []
      = (ERROR_BAD_ADDRESSING_MODE, [], 0x1000, none) := by
  decide

set_option maxRecDepth 4000 in
/-- C3 amended: an immediately known operand value in [0, 0x100) narrows
AM_ABSOLUTE/AM_ABSOLUTE_X to the zero-page modes unconditionally, whatever
the instruction.  Where a zero-page form exists the shorter encoding results
(LDA $10 → A5 10, two bytes; LDA $10,X → B5 10; STA $20 → 85 20); where only
the absolute form is legal the narrowing produces an addressing-mode error
(JMP $10, BPL with a known target below 0x100, JSR $10); a deferred operand
keeps the three-byte absolute encoding and queues a LET_ABS_REF late
evaluation (LDA forward → AD 00 00). -/
theorem C3_amended_unconditional_narrowing :
    AddOpcodeEncode OPG_CC01 5 AM_ABSOLUTE (some 0x10) 0x1000 0 0x1000 []
      = (STATUS_OK, [0xA5, 0x10], 0x1002, none) ∧
    AddOpcodeEncode OPG_CC01 5 AM_ABSOLUTE_X (some 0x10) 0x1000 0 0x1000 []
      = (STATUS_OK, [0xB5, 0x10], 0x1002, none) ∧
    AddOpcodeEncode OPG_CC01 4 AM_ABSOLUTE (some 0x20) 0x1000 0 0x1000 []
      = (STATUS_OK, [0x85, 0x20], 0x1002, none) ∧
    AddOpcodeEncode OPG_CC00 OPI_JMP AM_ABSOLUTE (some 0x10) 0x1000 0 0x1000 []
      = (ERROR_BAD_ADDRESSING_MODE, [], 0x1000, none) ∧
    (AddOpcodeEncode OPG_BRANCH 0 AM_ABSOLUTE (some 0x10) 0x1000 0 0x1000 []).1
      = ERROR_INVALID_ADDRESSING_MODE_FOR_BRANCH ∧
    (AddOpcodeEncode OPG_SUBROUT OPI_JSR AM_ABSOLUTE (some 0x10) 0x1000 0 0x1000 []).1
      = ERROR_INVALID_ADDRESSING_MODE_FOR_BRANCH ∧
    AddOpcodeEncode OPG_CC01 5 AM_ABSOLUTE none 0x1000 7 0x1000 ['l','b','l']
      = (STATUS_OK, [0xAD, 0, 0], 0x1003,
          some ⟨8, 0x1000, 0x1000, [], ['l','b','l'], .LET_ABS_REF⟩) ∧
    AddOpcodeEncode OPG_CC01 5 AM_ABSOLUTE (some 0x1234) 0x1000 0 0x1000 []
      = (STATUS_OK, [0xAD, 0x34, 0x12], 0x1003, none) := by
  refine ⟨?_, ?_, ?_, ?_, ?_, ?_, ?_, ?_⟩ <;> decide

/-! ## Claim C5: ALIGN -/

set_option maxRecDepth 4000 in
/-- C5: the ALIGN pad formula of the source, `(address + value-1) % value`,
contradicts the source's own comment "align address to multiple of value".
At address 0x1000 with ALIGN $100 (already aligned, so nothing should be
emitted) the code emits 0xFF zero bytes and leaves the address at 0x10FF,
which is not a multiple of 0x100; at address 0x1001 it emits nothing and
leaves 0x1001, though the next multiple is 0x1100.  `alignUpTo` is the
smallest multiple of v at or above the address, the claimed result. -/
theorem C5_align_pad_wrong :
    ApplyDirectiveAlign 0x1000 STATUS_OK 0x100
      = (STATUS_OK, 0x10FF, List.replicate 0xFF 0) ∧
    alignUpTo 0x1000 0x100 = 0x1000 ∧
    ¬ (0x100 ∣ 0x10FF) ∧
    ApplyDirectiveAlign 0x1001 STATUS_OK 0x100 = (STATUS_OK, 0x1001, []) ∧
    alignUpTo 0x1001 0x100 = 0x1100 ∧
    ApplyDirectiveAlign 0x1000 STATUS_NOT_READY 0
      = (ERROR_ALIGN_MUST_EVALUATE_IMMEDIATELY, 0x1000, []) := by
  decide

/-! ## Claim C7: error severity -/

/-- C7: in the BuildSegment skeleton a status above
ERROR_STOP_PROCESSING_ON_HIGHER (here ERROR_TOO_DEEP_SCOPE = 16) abandons
only the rest of its own line: the following line still executes, contrary
to the claim that the remaining lines of the current context are abandoned.
A status below the threshold (ERROR_UNEXPECTED_CHARACTER_IN_EXPRESSION = 2)
is reported, reset to STATUS_OK, and the same line continues. -/
theorem C7_high_severity_skips_line_only :
    buildSegmentRun [[ERROR_TOO_DEEP_SCOPE, STATUS_OK], [STATUS_OK]]
      = [ERROR_TOO_DEEP_SCOPE, STATUS_OK] ∧
    buildSegmentRun [[ERROR_UNEXPECTED_CHARACTER_IN_EXPRESSION, STATUS_OK], [STATUS_OK]]
      = [ERROR_UNEXPECTED_CHARACTER_IN_EXPRESSION, STATUS_OK, STATUS_OK] ∧
    buildSegmentReported [[ERROR_TOO_DEEP_SCOPE, STATUS_OK], [STATUS_OK]]
      = [ERROR_TOO_DEEP_SCOPE] := by
  decide

/-! ## Claim C9: FlushLocalLabels termination -/

/-- The scan of FlushLocalLabels leaves its state unchanged on a name
mismatch: its loop body never advances the index, so whenever the entry at
the index is in range and does not match case-sensitively, no amount of
fuel makes the loop finish. -/
theorem flushScanLoop_stuck (t : LabelTable) (name : List Char) (index : Nat)
    (hidx : index < t.length)
    (hmis : same_str_case name (tableAt t index).2.label_name = false) :
    ∀ fuel, flushScanLoop fuel t name index = none := by
  intro fuel
  induction fuel with
  | zero => rfl
  | succ n ih =>
    simp only [flushScanLoop]
    rw [if_pos hidx, if_neg (by simp [hmis])]
    exact ih

/-- C9: the inner scan of FlushLocalLabels never advances its index, so when
the entry at the FindLabelIndex position does not match the tracked name
(hash collision, or the label absent from the table) the `while` loop runs
forever: for every fuel the loop is still running.  Concretely, flushing the
tracked local `.a` against a table holding only the label `zz` (whose hash
exceeds fnv1a ".a", so the binary search lands on the non-matching entry)
never terminates, while every sibling scan in the source (GetLabel,
AddMacro's collision scan) advances its index. -/
theorem C9_flush_scan_never_terminates :
    (∀ fuel t name index, index < t.length →
      same_str_case name (tableAt t index).2.label_name = false →
      flushScanLoop fuel t name index = none) ∧
    (∀ fuel, FlushLocalLabels fuel
      [(fnv1a ['z','z'], (⟨['z','z'], [], 0, true, false, true⟩ : Label))] [['.','a']] = none) := by
  constructor
  · intro fuel t name index hidx hmis
    exact flushScanLoop_stuck t name index hidx hmis fuel
  · intro fuel
    have h := flushScanLoop_stuck
      [(fnv1a ['z','z'], (⟨['z','z'], [], 0, true, false, true⟩ : Label))] ['.','a']
      (FindLabelIndex (fnv1a ['.','a'])
        (tableKeys [(fnv1a ['z','z'], (⟨['z','z'], [], 0, true, false, true⟩ : Label))])
        (List.length [(fnv1a ['z','z'], (⟨['z','z'], [], 0, true, false, true⟩ : Label))]))
      (by decide) (by decide) fuel
    simp only [FlushLocalLabels, flushScan]
    rw [h]

/-- C9 witness: the theorem applied at a concrete state (fuel 3, a one-entry
table whose entry does not match the searched name). -/
theorem C9_witness :
    flushScanLoop 3 [(fnv1a ['z','z'], (⟨['z','z'], [], 0, true, false, true⟩ : Label))]
      ['.','a'] 0 = none :=
  C9_flush_scan_never_terminates.1 3
    [(fnv1a ['z','z'], (⟨['z','z'], [], 0, true, false, true⟩ : Label))] ['.','a'] 0
    (by decide) (by decide)

/-- Witness for C8: at the concrete sorted table [2, 5, 5, 9] the search for the
present hash 5 lands on the first of the two equal keys, at index 1. -/
theorem C8_witness :
    SortedLe [2, 5, 5, 9] ∧
    FindLabelIndex 5 [2, 5, 5, 9] ([2, 5, 5, 9] : List Nat).length <
      ([2, 5, 5, 9] : List Nat).length ∧
    ([2, 5, 5, 9] : List Nat).getD
      (FindLabelIndex 5 [2, 5, 5, 9] ([2, 5, 5, 9] : List Nat).length) 0 = 5 := by
  have hs : SortedLe [2, 5, 5, 9] := sortedLe_of_chain _ (by simp)
  have h := (C8_FindLabelIndex_sorted_search [2, 5, 5, 9] 5 hs).1
    ⟨1, by decide, by decide⟩
  exact ⟨hs, h.1, h.2.1⟩

/-! ## Claim C4: CheckLateEval runs a single scan, not a fixpoint -/

/-- Claim C4: the spec says CheckLateEval "repeats the scan whenever an entry
resolved a label value, so chains of dependent deferred expressions settle
within one call".  In the source the iterator of the inner scan is declared
before the `while (evaluated_label)` loop and never reset, so the second and
later passes see an exhausted iterator: one scan is the whole call.
Concretely (`lda #B` / `B = A` / `A:`): the call made when A is defined
resolves the label entry B = A (so evaluated_label was set), returns
STATUS_OK - yet the LET_BYTE entry whose expression names B stays queued and
its output byte at offset 5 is untouched (0xEE), even though one more scan
over the kept queue with B newly known would empty the queue and write the
byte (0x1000 & 0xff = 0), as the last two conjuncts show. -/
theorem C4_late_eval_single_scan :
    c4_run.1 = STATUS_OK ∧
    GetLabel c4_run.2.1 ['B'] = some ⟨['B'], ['A'], 0x1000, true, false, false⟩ ∧
    c4_run.2.2.2 = [c4_byteEntry] ∧
    c4_run.2.2.1 5 = 0xEE ∧
    (checkLateScan (-1) [c4_byteEntry] c4_run.2.1 c4_run.2.2.1 [] [['B']] false).2.2.2.1
      = [] ∧
    (checkLateScan (-1) [c4_byteEntry] c4_run.2.1 c4_run.2.2.1 [] [['B']] false).2.2.1 5
      = 0 := by
  refine ⟨?_, ?_, ?_, ?_, ?_, ?_⟩ <;> decide

/-! ## Claim C2: branch displacement and range -/

/-- The statuses the token reader can fail with: not-ready or
unexpected-character. -/
theorem readToken_status (labels : LabelTable) (pc scope_pc scope_end_pc : Int)
    (prev_op : Nat) (exp1 : List Char) (e : Nat × Int)
    (h : readToken labels pc scope_pc scope_end_pc prev_op exp1 = .error e) :
    e.1 = STATUS_NOT_READY ∨ e.1 = ERROR_UNEXPECTED_CHARACTER_IN_EXPRESSION := by
  unfold readToken at h
  by_cases c1 : get_first exp1 = '$'
  · rw [if_pos c1] at h; cases h
  rw [if_neg c1] at h
  by_cases c2 : get_first exp1 = '-'
  · rw [if_pos c2] at h; cases h
  rw [if_neg c2] at h
  by_cases c3 : get_first exp1 = '+'
  · rw [if_pos c3] at h; cases h
  rw [if_neg c3] at h
  by_cases c4 : get_first exp1 = '*'
  · rw [if_pos c4] at h
    by_cases c4a : prev_op = EVOP_VAL ∨ prev_op = EVOP_RPR
    · rw [if_pos c4a] at h; cases h
    · rw [if_neg c4a] at h; cases h
  rw [if_neg c4] at h
  by_cases c5 : get_first exp1 = '/'
  · rw [if_pos c5] at h; cases h
  rw [if_neg c5] at h
  by_cases c6 : get_first exp1 = '>'
  · rw [if_pos c6] at h
    by_cases c6a : 2 ≤ exp1.length ∧ char_at exp1 1 = '>'
    · rw [if_pos c6a] at h; cases h
    · rw [if_neg c6a] at h; cases h
  rw [if_neg c6] at h
  by_cases c7 : get_first exp1 = '<'
  · rw [if_pos c7] at h
    by_cases c7a : 2 ≤ exp1.length ∧ char_at exp1 1 = '<'
    · rw [if_pos c7a] at h; cases h
    · rw [if_neg c7a] at h; cases h
  rw [if_neg c7] at h
  by_cases c8 : get_first exp1 = '%'
  · rw [if_pos c8] at h
    by_cases c8a : scope_end_pc < 0
    · rw [if_pos c8a] at h; injection h with h1; subst h1; left; rfl
    · rw [if_neg c8a] at h; cases h
  rw [if_neg c8] at h
  by_cases c9 : get_first exp1 = '|'
  · rw [if_pos c9] at h; cases h
  rw [if_neg c9] at h
  by_cases c10 : get_first exp1 = '&'
  · rw [if_pos c10] at h; cases h
  rw [if_neg c10] at h
  by_cases c11 : get_first exp1 = '('
  · rw [if_pos c11] at h; cases h
  rw [if_neg c11] at h
  by_cases c12 : get_first exp1 = ')'
  · rw [if_pos c12] at h; cases h
  rw [if_neg c12] at h
  by_cases c13 : get_first exp1 = '!' ∧ len_label exp1.tail = 0
  · rw [if_pos c13] at h
    by_cases c13a : scope_pc < 0
    · rw [if_pos c13a] at h; injection h with h1; subst h1; left; rfl
    · rw [if_neg c13a] at h; cases h
  rw [if_neg c13] at h
  by_cases c14 : is_number (get_first exp1) = true
  · rw [if_pos c14] at h; cases h
  rw [if_neg c14] at h
  by_cases c15 : get_first exp1 = '!' ∨ is_valid_label (get_first exp1) = true
  · rw [if_pos c15] at h
    split at h
    · injection h with h1; subst h1; left; rfl
    · split at h
      · cases h
      · injection h with h1; subst h1; left; rfl
  · rw [if_neg c15] at h
    injection h with h1; subst h1; right; rfl

/-- The only status the shunting step can fail with is the unbalanced right
parenthesis. -/
theorem shuntStep_status (prec_pop : Nat → Nat → Bool) (op : Nat) (value : Int)
    (numValues : Nat) (values : List Int) (ops op_stack : List Nat) (st : Nat)
    (h : shuntStepWith prec_pop op value numValues values ops op_stack = .error st) :
    st = ERROR_UNBALANCED_RIGHT_PARENTHESIS := by
  unfold shuntStepWith at h
  split_ifs at h <;>
    first
      | (injection h with h1; exact h1.symm)
      | (injection h)
      | (split at h <;> first | (injection h with h1; exact h1.symm) | (injection h))

/-- The only status the RPN fold can fail with is ERROR_EXPRESSION_OPERATION:
an operator short of values takes the break arm (`.ok`), never an error. -/
theorem evalOps_status (ops : List Nat) (values : List Int) (sp valIdx st : Nat)
    (h : evalOps ops values sp valIdx = .error st) :
    st = ERROR_EXPRESSION_OPERATION := by
  induction ops generalizing values sp valIdx with
  | nil => cases h
  | cons op rest ih =>
    unfold evalOps at h
    by_cases d0 : op ≠ EVOP_VAL ∧ sp < 2
    · rw [if_pos d0] at h; injection h
    rw [if_neg d0] at h
    by_cases d1 : op = EVOP_VAL
    · rw [if_pos d1] at h; exact ih _ _ _ h
    rw [if_neg d1] at h
    by_cases d2 : op = EVOP_ADD
    · rw [if_pos d2] at h; exact ih _ _ _ h
    rw [if_neg d2] at h
    by_cases d3 : op = EVOP_SUB
    · rw [if_pos d3] at h; exact ih _ _ _ h
    rw [if_neg d3] at h
    by_cases d4 : op = EVOP_MUL
    · rw [if_pos d4] at h; exact ih _ _ _ h
    rw [if_neg d4] at h
    by_cases d5 : op = EVOP_DIV
    · rw [if_pos d5] at h; exact ih _ _ _ h
    rw [if_neg d5] at h
    by_cases d6 : op = EVOP_AND
    · rw [if_pos d6] at h; exact ih _ _ _ h
    rw [if_neg d6] at h
    by_cases d7 : op = EVOP_OR
    · rw [if_pos d7] at h; exact ih _ _ _ h
    rw [if_neg d7] at h
    by_cases d8 : op = EVOP_EOR
    · rw [if_pos d8] at h; exact ih _ _ _ h
    rw [if_neg d8] at h
    by_cases d9 : op = EVOP_SHL
    · rw [if_pos d9] at h; exact ih _ _ _ h
    rw [if_neg d9] at h
    by_cases d10 : op = EVOP_SHR
    · rw [if_pos d10] at h; exact ih _ _ _ h
    rw [if_neg d10] at h
    injection h with h1; exact h1.symm

/-- Every status the scanner loop can fail with: the token reader statuses,
the capacity errors, and the unbalanced parenthesis. -/
theorem evalShunt_status (labels : LabelTable) (pc scope_pc scope_end_pc : Int) :
    ∀ fuel exp prev_op numValues values ops op_stack e,
      evalShuntWith evop_pop labels pc scope_pc scope_end_pc fuel exp prev_op
        numValues values ops op_stack = .error e →
      e.1 = STATUS_NOT_READY ∨ e.1 = ERROR_UNEXPECTED_CHARACTER_IN_EXPRESSION ∨
      e.1 = ERROR_TOO_MANY_VALUES_IN_EXPRESSION ∨
      e.1 = ERROR_TOO_MANY_OPERATORS_IN_EXPRESSION ∨
      e.1 = ERROR_UNBALANCED_RIGHT_PARENTHESIS := by
  intro fuel
  induction fuel with
  | zero =>
    intro exp prev_op numValues values ops op_stack e h
    unfold evalShuntWith at h
    injection h with h1
    subst h1
    right; right; right; left; rfl
  | succ n ih =>
    intro exp prev_op numValues values ops op_stack e h
    unfold evalShuntWith at h
    by_cases hemp : exp.isEmpty = true
    · rw [if_pos hemp] at h; injection h
    rw [if_neg hemp] at h
    split at h
    · rename_i e2 hr
      injection h with h1
      subst h1
      rcases readToken_status labels pc scope_pc scope_end_pc prev_op
        (skip_whitespace exp) e2 hr with h2 | h2
      · left; exact h2
      · right; left; exact h2
    · rename_i op value rest hr
      split at h
      · rename_i st hs
        injection h with h1
        subst h1
        right; right; right; right
        exact shuntStep_status evop_pop op value numValues values ops op_stack st hs
      · rename_i numValues2 values2 ops2 op_stack2 hs
        by_cases h3 : MAX_EVAL_VALUES ≤ numValues2
        · rw [if_pos h3] at h; injection h with h1; subst h1; right; right; left; rfl
        rw [if_neg h3] at h
        by_cases h4 : MAX_EVAL_OPER ≤ ops2.length ∨ MAX_EVAL_OPER ≤ op_stack2.length
        · rw [if_pos h4] at h; injection h with h1; subst h1
          right; right; right; left; rfl
        · rw [if_neg h4] at h
          exact ih rest op numValues2 values2 ops2 op_stack2 e h

/-- Claim C10: an empty expression, or one emptied by a lone leading `>` or
`<` byte filter, evaluates to STATUS_OK with result 0 (values[0] is
pre-initialized to 0), whatever the label table and the pc/scope arguments;
and no expression at all ever produces ERROR_EXPRESSION_MISSING_VALUES: the
RPN fold breaks silently on an operator short of values, and every failing
path carries one of the other statuses. -/
theorem C10_empty_expression_ok :
    (∀ (labels : LabelTable) (pc sp se : Int),
      EvalExpression labels [] pc sp se = (STATUS_OK, 0)) ∧
    (∀ (labels : LabelTable) (pc sp se : Int),
      EvalExpression labels ['>'] pc sp se = (STATUS_OK, 0)) ∧
    (∀ (labels : LabelTable) (pc sp se : Int),
      EvalExpression labels ['<'] pc sp se = (STATUS_OK, 0)) ∧
    (∀ (labels : LabelTable) (exp : List Char) (pc sp se : Int),
      (EvalExpression labels exp pc sp se).1 ≠ ERROR_EXPRESSION_MISSING_VALUES) := by
  refine ⟨fun _ _ _ _ => rfl, fun _ _ _ _ => rfl, fun _ _ _ _ => rfl, ?_⟩
  intro labels exp pc sp se
  unfold EvalExpression EvalExpressionWith
  split
  · rename_i e he
    rcases evalShunt_status labels pc sp se _ _ _ _ _ _ _ _ he with
      h | h | h | h | h <;>
      simp [h, STATUS_NOT_READY, ERROR_UNEXPECTED_CHARACTER_IN_EXPRESSION,
        ERROR_TOO_MANY_VALUES_IN_EXPRESSION, ERROR_TOO_MANY_OPERATORS_IN_EXPRESSION,
        ERROR_UNBALANCED_RIGHT_PARENTHESIS, ERROR_EXPRESSION_MISSING_VALUES]
  · rename_i values ops hok
    split
    · rename_i st hst
      have h2 := evalOps_status _ _ _ _ _ hst
      subst h2
      simp [ERROR_EXPRESSION_OPERATION, ERROR_EXPRESSION_MISSING_VALUES]
    · rename_i values2 hv
      simp [STATUS_OK, ERROR_EXPRESSION_MISSING_VALUES]

/-! ## Claim C6: local label flush -/

/-- Storing a value through a pointer keeps the key column unchanged. -/
theorem setLabelAt_keys (t : LabelTable) (i : Nat) (v : Label) :
    tableKeys (setLabelAt t i v) = tableKeys t := by
  induction t generalizing i with
  | nil => rfl
  | cons x xs ih =>
    cases i with
    | zero => rfl
    | succ n => exact congrArg (fun l => x.1 :: l) (ih n)

/-- The late-evaluation scan never changes the key column: labels are only
updated in place through setLabelAt. -/
theorem checkLateScan_keys (scope_end : Int) :
    ∀ (queue : List LateEval) (labels : LabelTable) (out : Nat → Nat)
      (kept : List LateEval) (newLabels : List (List Char)) (evl : Bool),
      tableKeys (checkLateScan scope_end queue labels out kept newLabels evl).2.1
        = tableKeys labels := by
  intro queue
  induction queue with
  | nil =>
    intro labels out kept newLabels evl
    rfl
  | cons i rest ih =>
    intro labels out kept newLabels evl
    unfold checkLateScan
    by_cases h1 : lateEvalCheckFlag newLabels scope_end i.expression = true
    · rw [if_pos h1]
      by_cases h2 : (EvalExpression labels i.expression i.address i.scope scope_end).1
          = STATUS_OK
      · rw [if_pos h2]
        cases ht : i.type with
        | LET_BRANCH =>
          by_cases h3 : (EvalExpression labels i.expression i.address i.scope
                scope_end).2 - i.address < -128 ∨
              127 < (EvalExpression labels i.expression i.address i.scope
                scope_end).2 - i.address
          · rw [if_pos h3]
          · rw [if_neg h3]
            exact ih _ _ _ _ _
        | LET_BYTE => exact ih _ _ _ _ _
        | LET_ABS_REF => exact ih _ _ _ _ _
        | LET_LABEL =>
          cases hg : GetLabelIdx labels i.label with
          | none => rfl
          | some idx =>
            exact (ih _ _ _ _ _).trans (setLabelAt_keys labels idx _)
      · rw [if_neg h2]
        exact ih _ _ _ _ _
    · rw [if_neg h1]
      exact ih _ _ _ _ _

/-- Asm::CheckLateEval never changes the key column. -/
theorem CheckLateEval_keys (labels : LabelTable) (out : Nat → Nat)
    (queue : List LateEval) (added_label : List Char) (scope_end : Int) :
    tableKeys (CheckLateEval labels out queue added_label scope_end).2.1
      = tableKeys labels := by
  unfold CheckLateEval
  have h := checkLateScan_keys scope_end queue labels out []
    (if added_label.isEmpty then [] else [added_label]) false
  generalize hsc : checkLateScan scope_end queue labels out []
    (if added_label.isEmpty then [] else [added_label]) false = p at h ⊢
  obtain ⟨st, labels2, out2, kept, nl, ev⟩ := p
  exact h

end Asm6502
